import Mathlib

/-!
Verification of the SOAP-note evaluation system.

The repository ships a TypeScript dashboard frontend
(frontend/src/api.ts and the chart components); the Python evaluation
pipeline (deterministic scorer, judge adapter, orchestrator, aggregation
engine) is described by the specification but its modules are not among
the provided sources, so those parts are modelled from the spec and are
marked as such.  Scores are modelled as real numbers (the code works in
IEEE floating point); counts as naturals or integers as the code does.
-/

namespace SOAPVerify

/-! ## Issue data model and boundary validation (Judge Adapter, spec kind 4.3) -/

/-- The closed enumeration of issue categories from the data model. -/
inductive IssueCategory where
  | missing_critical
  | hallucination
  | clinical_error
deriving DecidableEq, Repr

/-- The closed enumeration of issue severities from the data model. -/
inductive IssueSeverity where
  | minor
  | major
  | critical
deriving DecidableEq, Repr

/-- The canonical string for each category, as it appears on the wire. -/
def categoryName : IssueCategory → String
  | .missing_critical => "missing_critical"
  | .hallucination => "hallucination"
  | .clinical_error => "clinical_error"

/-- The canonical string for each severity, as it appears on the wire. -/
def severityName : IssueSeverity → String
  | .minor => "minor"
  | .major => "major"
  | .critical => "critical"

/-- An issue as received from the untrusted judge payload: category and
severity are raw strings, not yet validated. -/
structure RawIssue where
  category : String
  severity : String
  description : String
  span_model : Option String
  span_source : Option String

/-- A validated issue: category and severity are members of the closed
enumerations. -/
structure Issue where
  category : IssueCategory
  severity : IssueSeverity
  description : String
  span_model : Option String
  span_source : Option String

/-- Modelled from the spec: the Judge Adapter's response validation
(missing module src/eval/llm_judge.py) parses a raw category string,
accepting exactly the three members of the closed enumeration. -/
def parseCategory (s : String) : Option IssueCategory :=
  if s = "missing_critical" then some .missing_critical
  else if s = "hallucination" then some .hallucination
  else if s = "clinical_error" then some .clinical_error
  else none

/-- Modelled from the spec: the Judge Adapter's response validation
(missing module src/eval/llm_judge.py) parses a raw severity string,
accepting exactly the three members of the closed enumeration. -/
def parseSeverity (s : String) : Option IssueSeverity :=
  if s = "minor" then some .minor
  else if s = "major" then some .major
  else if s = "critical" then some .critical
  else none

/-- Modelled from the spec: boundary validation of one raw issue — any
issue with an unrecognized category or severity is dropped (returns
`none`), never renamed. -/
def validateIssue (r : RawIssue) : Option Issue :=
  match parseCategory r.category, parseSeverity r.severity with
  | some c, some s => some ⟨c, s, r.description, r.span_model, r.span_source⟩
  | _, _ => none

lemma parseCategory_isSome (s : String) :
    (parseCategory s).isSome ↔
      s = "missing_critical" ∨ s = "hallucination" ∨ s = "clinical_error" := by
  unfold parseCategory
  split_ifs <;> simp [*]

lemma parseSeverity_isSome (s : String) :
    (parseSeverity s).isSome ↔
      s = "minor" ∨ s = "major" ∨ s = "critical" := by
  unfold parseSeverity
  split_ifs <;> simp [*]

lemma parseCategory_name {s : String} {c : IssueCategory}
    (h : parseCategory s = some c) : categoryName c = s := by
  unfold parseCategory at h
  split_ifs at h <;> simp only [Option.some.injEq, reduceCtorEq] at h <;>
    subst h <;> simp_all [categoryName]

lemma parseSeverity_name {s : String} {v : IssueSeverity}
    (h : parseSeverity s = some v) : severityName v = s := by
  unfold parseSeverity at h
  split_ifs at h <;> simp only [Option.some.injEq, reduceCtorEq] at h <;>
    subst h <;> simp_all [severityName]

/-- C6: an issue's category is one of missing_critical, hallucination,
clinical_error and its severity is one of minor, major, critical; a raw
issue passes boundary validation exactly when both strings are members
of those closed enumerations, and a validated issue carries exactly the
raw strings it was given — nothing is coerced to a different value. -/
theorem validateIssue_closed_enums (r : RawIssue) :
    ((validateIssue r).isSome ↔
      (r.category = "missing_critical" ∨ r.category = "hallucination" ∨
        r.category = "clinical_error") ∧
      (r.severity = "minor" ∨ r.severity = "major" ∨ r.severity = "critical")) ∧
    (∀ i : Issue, validateIssue r = some i →
      categoryName i.category = r.category ∧ severityName i.severity = r.severity) := by
  constructor
  · rw [← parseCategory_isSome, ← parseSeverity_isSome]
    unfold validateIssue
    cases hc : parseCategory r.category <;> cases hs : parseSeverity r.severity <;>
      simp [hc, hs]
  · intro i hi
    unfold validateIssue at hi
    cases hc : parseCategory r.category <;> cases hs : parseSeverity r.severity <;>
      rw [hc, hs] at hi <;> simp at hi
    subst hi
    exact ⟨parseCategory_name hc, parseSeverity_name hs⟩

/-- C6 witness: a concrete raw issue with recognized category and severity
is accepted, and its strings survive validation unchanged. -/
theorem validateIssue_closed_enums_witness :
    (validateIssue ⟨"hallucination", "major", "d", none, none⟩).isSome :=
  (validateIssue_closed_enums ⟨"hallucination", "major", "d", none, none⟩).1.mpr
    (by simp)

/-! ## Deterministic Scorer (spec kind 4.2) -/

/-- Modelled from the spec: coverage (missing module
src/eval/deterministic.py).  `matchedFlags` records, for each salient
reference/transcript sentence, whether some generated-note sentence
matches it; coverage is matched / total, and 1.0 when there are no
salient sentences. -/
noncomputable def coverageScore (matchedFlags : List Bool) : ℝ :=
  if matchedFlags.length = 0 then 1
  else (matchedFlags.count true : ℝ) / (matchedFlags.length : ℝ)

/-- Modelled from the spec: faithfulness (missing module
src/eval/deterministic.py).  `supportedFlags` records, for each
generated-note sentence, whether it matches some transcript/reference
sentence; faithfulness is 1 − hallucinated/total with floor 0, and 1.0
for an empty generated note. -/
noncomputable def faithfulnessScore (supportedFlags : List Bool) : ℝ :=
  if supportedFlags.length = 0 then 1
  else max 0 (1 - (supportedFlags.count false : ℝ) / (supportedFlags.length : ℝ))

/-- Modelled from the spec: structure score (missing module
src/eval/deterministic.py): the fraction of the four SOAP section
markers detected. -/
noncomputable def structureScore (s o a p : Bool) : ℝ :=
  ((if s then 1 else 0) + (if o then 1 else 0) + (if a then 1 else 0) +
    (if p then 1 else 0)) / 4

/-- Length of the longest common subsequence of two token lists. -/
def lcsLen : List String → List String → ℕ
  | [], _ => 0
  | _ :: _, [] => 0
  | a :: as, b :: bs =>
    if a = b then lcsLen as bs + 1
    else max (lcsLen (a :: as) bs) (lcsLen as (b :: bs))
termination_by xs ys => xs.length + ys.length

/-- The standard F1 combination of a precision and a recall; 0 when both
vanish. -/
noncomputable def f1Score (p r : ℝ) : ℝ :=
  if p + r = 0 then 0 else 2 * p * r / (p + r)

/-- Modelled from the spec: ROUGE-L F measure (missing module
src/eval/deterministic.py): token-level LCS recall and precision,
combined by the standard F1 formula; 0 when either side is empty. -/
noncomputable def rougeLF (refTokens genTokens : List String) : ℝ :=
  if refTokens.length = 0 ∨ genTokens.length = 0 then 0
  else f1Score ((lcsLen refTokens genTokens : ℝ) / (genTokens.length : ℝ))
    ((lcsLen refTokens genTokens : ℝ) / (refTokens.length : ℝ))

/-- All contiguous n-grams of a token list. -/
def ngrams (n : ℕ) (l : List String) : List (List String) :=
  (List.range (l.length + 1 - n)).map (fun i => (l.drop i).take n)

/-- Modelled from the spec: n-gram match flags — for each candidate
n-gram, whether it occurs among the reference n-grams. -/
def ngramMatchFlags (n : ℕ) (refT candT : List String) : List Bool :=
  (ngrams n candT).map (fun g => (ngrams n refT).contains g)

/-- Modelled from the spec: add-one smoothed n-gram precision, so short
notes never score an exact zero. -/
noncomputable def smoothedPrecision (flags : List Bool) : ℝ :=
  ((flags.count true : ℝ) + 1) / ((flags.length : ℝ) + 1)

/-- Modelled from the spec: BLEU (missing module
src/eval/deterministic.py): brevity penalty times the geometric mean of
the smoothed 1..4-gram precisions; 0 for an empty candidate. -/
noncomputable def bleuScore (refT candT : List String) : ℝ :=
  if candT.length = 0 then 0
  else
    let bp : ℝ := min 1 (Real.exp (1 - (refT.length : ℝ) / (candT.length : ℝ)))
    let p : ℕ → ℝ := fun n => smoothedPrecision (ngramMatchFlags n refT candT)
    bp * (p 1 * p 2 * p 3 * p 4) ^ ((1 : ℝ) / 4)

/-! ## Judge scores, merge and the per-example ScoreSet (spec kinds 4.3, 4.4) -/

/-- Scores returned by the judge for one example. -/
structure JudgeScores where
  coverage : ℝ
  faithfulness : ℝ
  accuracy : ℝ

/-- Clamp a score into the unit interval. -/
noncomputable def clamp01 (x : ℝ) : ℝ := max 0 (min 1 x)

/-- Modelled from the spec: judge response validation (missing module
src/eval/llm_judge.py) clamps any out-of-range score into [0,1]. -/
noncomputable def validateJudgeScores (j : JudgeScores) : JudgeScores :=
  ⟨clamp01 j.coverage, clamp01 j.faithfulness, clamp01 j.accuracy⟩

/-- The deterministic layer's partial score contribution. -/
structure DetScores where
  coverage : ℝ
  faithfulness : ℝ
  structure_score : ℝ
  rouge_l_f : Option ℝ
  bleu : Option ℝ

/-- The per-example score set of a Verdict. -/
structure ScoreSet where
  coverage : ℝ
  faithfulness : ℝ
  accuracy : ℝ
  overall_quality : ℝ
  structure_score : ℝ
  rouge_l_f : Option ℝ
  bleu : Option ℝ

/-- Modelled from the spec: the fixed neutral default used when neither a
judged nor a deterministic value exists for a score (accuracy when the
judge is unavailable). -/
noncomputable def neutralScore : ℝ := 1 / 2

/-- Modelled from the spec: the Orchestrator's merge (missing module
src/eval/pipeline.py) — validated judged coverage/faithfulness/accuracy
override deterministic values when present; the deterministic value (or
the neutral default, for accuracy) is the fallback; overall_quality is
computed last, once, from the merged scores with the fixed weights. -/
noncomputable def mergeAndScore (det : DetScores) (judged : Option JudgeScores) :
    ScoreSet :=
  let j := judged.map validateJudgeScores
  let c := (j.map JudgeScores.coverage).getD det.coverage
  let f := (j.map JudgeScores.faithfulness).getD det.faithfulness
  let a := (j.map JudgeScores.accuracy).getD neutralScore
  { coverage := c
    faithfulness := f
    accuracy := a
    overall_quality := 0.4 * c + 0.3 * f + 0.3 * a
    structure_score := det.structure_score
    rouge_l_f := det.rouge_l_f
    bleu := det.bleu }

/-- Modelled from the spec: the Deterministic Scorer assembled (missing
module src/eval/deterministic.py): reference-based metrics are computed
exactly when a reference token list is supplied, otherwise omitted. -/
noncomputable def runDeterministic (covFlags supportedFlags : List Bool)
    (s o a p : Bool) (refTokens : Option (List String)) (genTokens : List String) :
    DetScores :=
  { coverage := coverageScore covFlags
    faithfulness := faithfulnessScore supportedFlags
    structure_score := structureScore s o a p
    rouge_l_f := refTokens.map (fun r => rougeLF r genTokens)
    bleu := refTokens.map (fun r => bleuScore r genTokens) }

/-- Modelled from the spec: per-example scoring end to end — the
deterministic layer, then the merge with the (optional) judged scores. -/
noncomputable def evaluateScores (covFlags supportedFlags : List Bool)
    (s o a p : Bool) (refTokens : Option (List String)) (genTokens : List String)
    (judged : Option JudgeScores) : ScoreSet :=
  mergeAndScore (runDeterministic covFlags supportedFlags s o a p refTokens genTokens)
    judged

/-- C1: every merged ScoreSet satisfies overall_quality =
0.4·coverage + 0.3·faithfulness + 0.3·accuracy exactly — hence within
the 1e-6 floating-point tolerance — and overall_quality is derived from
the merged coverage/faithfulness/accuracy of the same ScoreSet. -/
theorem overall_quality_weighted (det : DetScores) (judged : Option JudgeScores) :
    (mergeAndScore det judged).overall_quality =
      0.4 * (mergeAndScore det judged).coverage +
        0.3 * (mergeAndScore det judged).faithfulness +
        0.3 * (mergeAndScore det judged).accuracy ∧
    |(mergeAndScore det judged).overall_quality -
        (0.4 * (mergeAndScore det judged).coverage +
          0.3 * (mergeAndScore det judged).faithfulness +
          0.3 * (mergeAndScore det judged).accuracy)| ≤ 1e-6 := by
  refine ⟨rfl, ?_⟩
  have h : (mergeAndScore det judged).overall_quality -
      (0.4 * (mergeAndScore det judged).coverage +
        0.3 * (mergeAndScore det judged).faithfulness +
        0.3 * (mergeAndScore det judged).accuracy) = 0 := by
    rw [sub_eq_zero]
    rfl
  rw [h, abs_zero]
  norm_num

/-- C7: when there are no salient sentences to cover, coverage is defined
and equals exactly 1.0 — no error and no division by zero. -/
theorem coverage_vacuous (matchedFlags : List Bool)
    (h : matchedFlags.length = 0) : coverageScore matchedFlags = 1 := by
  simp [coverageScore, h]

/-- C7 witness: the empty salient-sentence list has coverage exactly 1. -/
theorem coverage_vacuous_witness :
    ([] : List Bool).length = 0 ∧ coverageScore [] = 1 :=
  ⟨rfl, coverage_vacuous [] rfl⟩

/-! ## Range lemmas for every score component -/

lemma coverageScore_mem (flags : List Bool) :
    0 ≤ coverageScore flags ∧ coverageScore flags ≤ 1 := by
  unfold coverageScore
  split_ifs with h
  · norm_num
  · have h0 : 0 < (flags.length : ℝ) := by
      exact_mod_cast Nat.pos_of_ne_zero h
    refine ⟨by positivity, ?_⟩
    rw [div_le_one h0]
    exact_mod_cast List.count_le_length true flags

lemma faithfulnessScore_mem (flags : List Bool) :
    0 ≤ faithfulnessScore flags ∧ faithfulnessScore flags ≤ 1 := by
  unfold faithfulnessScore
  split_ifs with h
  · norm_num
  · refine ⟨le_max_left 0 _, max_le (by norm_num) ?_⟩
    have h1 : 0 ≤ (flags.count false : ℝ) / (flags.length : ℝ) := by positivity
    linarith

lemma structureScore_mem (s o a p : Bool) :
    0 ≤ structureScore s o a p ∧ structureScore s o a p ≤ 1 := by
  unfold structureScore
  rcases s <;> rcases o <;> rcases a <;> rcases p <;> norm_num

lemma clamp01_mem (x : ℝ) : 0 ≤ clamp01 x ∧ clamp01 x ≤ 1 :=
  ⟨le_max_left 0 _, max_le zero_le_one (min_le_left 1 x)⟩

lemma lcsLen_le (xs ys : List String) :
    lcsLen xs ys ≤ xs.length ∧ lcsLen xs ys ≤ ys.length := by
  induction xs, ys using lcsLen.induct with
  | case1 ys => simp [lcsLen]
  | case2 b bs => simp [lcsLen]
  | case3 as b bs ih =>
    rw [lcsLen, if_pos rfl]
    simp only [List.length_cons]
    omega
  | case4 a as b bs h ih1 ih2 =>
    rw [lcsLen, if_neg h]
    obtain ⟨ih1a, ih1b⟩ := ih1
    obtain ⟨ih2a, ih2b⟩ := ih2
    simp only [List.length_cons] at *
    constructor <;> apply max_le <;> omega

lemma f1Score_mem {p r : ℝ} (hp0 : 0 ≤ p) (hp1 : p ≤ 1) (hr0 : 0 ≤ r)
    (hr1 : r ≤ 1) : 0 ≤ f1Score p r ∧ f1Score p r ≤ 1 := by
  unfold f1Score
  split_ifs with h
  · norm_num
  · have hsum : 0 < p + r := lt_of_le_of_ne (by linarith) (Ne.symm h)
    refine ⟨by positivity, ?_⟩
    rw [div_le_one hsum]
    nlinarith

lemma rougeLF_mem (refTokens genTokens : List String) :
    0 ≤ rougeLF refTokens genTokens ∧ rougeLF refTokens genTokens ≤ 1 := by
  unfold rougeLF
  split_ifs with h1
  · norm_num
  · push_neg at h1
    have hrp : 0 < (refTokens.length : ℝ) := by
      exact_mod_cast Nat.pos_of_ne_zero h1.1
    have hgp : 0 < (genTokens.length : ℝ) := by
      exact_mod_cast Nat.pos_of_ne_zero h1.2
    have hle := lcsLen_le refTokens genTokens
    have hrcl1 : (lcsLen refTokens genTokens : ℝ) / (refTokens.length : ℝ) ≤ 1 := by
      rw [div_le_one hrp]; exact_mod_cast hle.1
    have hprc1 : (lcsLen refTokens genTokens : ℝ) / (genTokens.length : ℝ) ≤ 1 := by
      rw [div_le_one hgp]; exact_mod_cast hle.2
    exact f1Score_mem (by positivity) hprc1 (by positivity) hrcl1

lemma smoothedPrecision_mem (flags : List Bool) :
    0 < smoothedPrecision flags ∧ smoothedPrecision flags ≤ 1 := by
  unfold smoothedPrecision
  have hlen : (0 : ℝ) < (flags.length : ℝ) + 1 := by positivity
  refine ⟨by positivity, ?_⟩
  rw [div_le_one hlen]
  have := List.count_le_length true flags
  have hc : (flags.count true : ℝ) ≤ (flags.length : ℝ) := by exact_mod_cast this
  linarith

lemma bleuScore_mem (refT candT : List String) :
    0 ≤ bleuScore refT candT ∧ bleuScore refT candT ≤ 1 := by
  unfold bleuScore
  split_ifs with h
  · norm_num
  · have hbp0 : (0 : ℝ) ≤ min 1 (Real.exp (1 - (refT.length : ℝ) / (candT.length : ℝ))) :=
      le_min zero_le_one (Real.exp_pos _).le
    have hbp1 : min 1 (Real.exp (1 - (refT.length : ℝ) / (candT.length : ℝ))) ≤ 1 :=
      min_le_left _ _
    have hp : ∀ n : ℕ, 0 ≤ smoothedPrecision (ngramMatchFlags n refT candT) ∧
        smoothedPrecision (ngramMatchFlags n refT candT) ≤ 1 := fun n =>
      ⟨(smoothedPrecision_mem _).1.le, (smoothedPrecision_mem _).2⟩
    have hprod0 : (0 : ℝ) ≤ smoothedPrecision (ngramMatchFlags 1 refT candT) *
        smoothedPrecision (ngramMatchFlags 2 refT candT) *
        smoothedPrecision (ngramMatchFlags 3 refT candT) *
        smoothedPrecision (ngramMatchFlags 4 refT candT) := by
      have h1 := (hp 1).1; have h2 := (hp 2).1; have h3 := (hp 3).1
      have h4 := (hp 4).1
      positivity
    have hprod1 : smoothedPrecision (ngramMatchFlags 1 refT candT) *
        smoothedPrecision (ngramMatchFlags 2 refT candT) *
        smoothedPrecision (ngramMatchFlags 3 refT candT) *
        smoothedPrecision (ngramMatchFlags 4 refT candT) ≤ 1 := by
      have h12 : smoothedPrecision (ngramMatchFlags 1 refT candT) *
          smoothedPrecision (ngramMatchFlags 2 refT candT) ≤ 1 :=
        mul_le_one₀ (hp 1).2 (hp 2).1 (hp 2).2
      have h12n : (0 : ℝ) ≤ smoothedPrecision (ngramMatchFlags 1 refT candT) *
          smoothedPrecision (ngramMatchFlags 2 refT candT) :=
        mul_nonneg (hp 1).1 (hp 2).1
      have h123 : smoothedPrecision (ngramMatchFlags 1 refT candT) *
          smoothedPrecision (ngramMatchFlags 2 refT candT) *
          smoothedPrecision (ngramMatchFlags 3 refT candT) ≤ 1 :=
        mul_le_one₀ h12 (hp 3).1 (hp 3).2
      have h123n : (0 : ℝ) ≤ smoothedPrecision (ngramMatchFlags 1 refT candT) *
          smoothedPrecision (ngramMatchFlags 2 refT candT) *
          smoothedPrecision (ngramMatchFlags 3 refT candT) :=
        mul_nonneg h12n (hp 3).1
      exact mul_le_one₀ h123 (hp 4).1 (hp 4).2
    have hpow0 : (0 : ℝ) ≤ (smoothedPrecision (ngramMatchFlags 1 refT candT) *
        smoothedPrecision (ngramMatchFlags 2 refT candT) *
        smoothedPrecision (ngramMatchFlags 3 refT candT) *
        smoothedPrecision (ngramMatchFlags 4 refT candT)) ^ ((1 : ℝ) / 4) :=
      Real.rpow_nonneg hprod0 _
    have hpow1 : (smoothedPrecision (ngramMatchFlags 1 refT candT) *
        smoothedPrecision (ngramMatchFlags 2 refT candT) *
        smoothedPrecision (ngramMatchFlags 3 refT candT) *
        smoothedPrecision (ngramMatchFlags 4 refT candT)) ^ ((1 : ℝ) / 4) ≤ 1 :=
      Real.rpow_le_one hprod0 hprod1 (by norm_num)
    exact ⟨mul_nonneg hbp0 hpow0, mul_le_one₀ hbp1 hpow0 hpow1⟩

lemma neutralScore_mem : (0 : ℝ) ≤ neutralScore ∧ neutralScore ≤ 1 := by
  unfold neutralScore; norm_num

lemma weighted_mem {c f a : ℝ} (hc0 : 0 ≤ c) (hc1 : c ≤ 1) (hf0 : 0 ≤ f)
    (hf1 : f ≤ 1) (ha0 : 0 ≤ a) (ha1 : a ≤ 1) :
    (0 : ℝ) ≤ 0.4 * c + 0.3 * f + 0.3 * a ∧ 0.4 * c + 0.3 * f + 0.3 * a ≤ 1 := by
  constructor <;> nlinarith

/-- C5: every score present in a pipeline-produced ScoreSet lies in the
closed interval [0,1] — coverage, faithfulness, accuracy,
overall_quality and structure_score always, and rouge_l_f / bleu
whenever present; an absent metric is the Option none, never a sentinel
number. -/
theorem scoreSet_values_unit_interval (covFlags supportedFlags : List Bool)
    (s o a p : Bool) (refTokens : Option (List String)) (genTokens : List String)
    (judged : Option JudgeScores) (sset : ScoreSet)
    (hss : sset = evaluateScores covFlags supportedFlags s o a p refTokens
      genTokens judged) :
    (0 ≤ sset.coverage ∧ sset.coverage ≤ 1) ∧
    (0 ≤ sset.faithfulness ∧ sset.faithfulness ≤ 1) ∧
    (0 ≤ sset.accuracy ∧ sset.accuracy ≤ 1) ∧
    (0 ≤ sset.overall_quality ∧ sset.overall_quality ≤ 1) ∧
    (0 ≤ sset.structure_score ∧ sset.structure_score ≤ 1) ∧
    (∀ x : ℝ, sset.rouge_l_f = some x → 0 ≤ x ∧ x ≤ 1) ∧
    (∀ x : ℝ, sset.bleu = some x → 0 ≤ x ∧ x ≤ 1) := by
  subst hss
  unfold evaluateScores mergeAndScore runDeterministic
  have hc := coverageScore_mem covFlags
  have hf := faithfulnessScore_mem supportedFlags
  have hst := structureScore_mem s o a p
  have hn := neutralScore_mem
  cases judged with
  | none =>
    simp only [Option.map_none', Option.getD_none]
    refine ⟨hc, hf, hn, ?_, hst, ?_, ?_⟩
    · exact weighted_mem hc.1 hc.2 hf.1 hf.2 hn.1 hn.2
    · intro x hx
      cases refTokens with
      | none => simp only [Option.map_none'] at hx; cases hx
      | some r =>
        simp only [Option.map_some', Option.some.injEq] at hx
        subst hx
        exact rougeLF_mem r genTokens
    · intro x hx
      cases refTokens with
      | none => simp only [Option.map_none'] at hx; cases hx
      | some r =>
        simp only [Option.map_some', Option.some.injEq] at hx
        subst hx
        exact bleuScore_mem r genTokens
  | some j =>
    simp only [Option.map_some', Option.getD_some]
    have hjc := clamp01_mem j.coverage
    have hjf := clamp01_mem j.faithfulness
    have hja := clamp01_mem j.accuracy
    refine ⟨hjc, hjf, hja, ?_, hst, ?_, ?_⟩
    · exact weighted_mem hjc.1 hjc.2 hjf.1 hjf.2 hja.1 hja.2
    · intro x hx
      cases refTokens with
      | none => simp only [Option.map_none'] at hx; cases hx
      | some r =>
        simp only [Option.map_some', Option.some.injEq] at hx
        subst hx
        exact rougeLF_mem r genTokens
    · intro x hx
      cases refTokens with
      | none => simp only [Option.map_none'] at hx; cases hx
      | some r =>
        simp only [Option.map_some', Option.some.injEq] at hx
        subst hx
        exact bleuScore_mem r genTokens

/-- C5 witness: the range property instantiated on a concrete evaluated
example (one covered salient sentence, one supported generated sentence,
all four sections present, a reference, no judge). -/
theorem scoreSet_values_unit_interval_witness :
    (0 ≤ (evaluateScores [true] [true] true true true true (some ["a"]) ["a"]
        none).coverage ∧
      (evaluateScores [true] [true] true true true true (some ["a"]) ["a"]
        none).coverage ≤ 1) ∧
    (∀ x : ℝ, (evaluateScores [true] [true] true true true true (some ["a"]) ["a"]
        none).rouge_l_f = some x → 0 ≤ x ∧ x ≤ 1) := by
  have h := scoreSet_values_unit_interval [true] [true] true true true true
    (some ["a"]) ["a"] none _ rfl
  exact ⟨h.1, h.2.2.2.2.2.1⟩

/-! ## Serialization of a ScoreSet (spec kind 6) -/

/-- A JSON scalar on the wire: a number or the null literal. -/
inductive JsonValue where
  | num (x : ℝ)
  | null

/-- Modelled from the spec: the per-line JSON serialization of a
Verdict's ScoreSet (the writer, src/run_eval_env.py, is not among the
sources): the five core scores are always emitted; rouge_l_f and bleu
are emitted only when present — an absent metric's key is omitted, never
written as null. -/
noncomputable def serializeScores (s : ScoreSet) : List (String × JsonValue) :=
  [("coverage", JsonValue.num s.coverage),
    ("faithfulness", JsonValue.num s.faithfulness),
    ("accuracy", JsonValue.num s.accuracy),
    ("overall_quality", JsonValue.num s.overall_quality),
    ("structure_score", JsonValue.num s.structure_score)] ++
  (match s.rouge_l_f with
    | some x => [("rouge_l_f", JsonValue.num x)]
    | none => []) ++
  (match s.bleu with
    | some x => [("bleu", JsonValue.num x)]
    | none => [])

/-- C3: in the serialized ScoreSet of a pipeline-produced verdict the
rouge_l_f and bleu keys are present iff a reference was supplied, and no
field is ever serialized as null — an absent metric's key is omitted
entirely. -/
theorem reference_metrics_present_iff (covFlags supportedFlags : List Bool)
    (s o a p : Bool) (refTokens : Option (List String)) (genTokens : List String)
    (judged : Option JudgeScores) (sset : ScoreSet)
    (hss : sset = evaluateScores covFlags supportedFlags s o a p refTokens
      genTokens judged) :
    ("rouge_l_f" ∈ (serializeScores sset).map Prod.fst ↔ refTokens.isSome) ∧
    ("bleu" ∈ (serializeScores sset).map Prod.fst ↔ refTokens.isSome) ∧
    (∀ kv ∈ serializeScores sset, kv.2 ≠ JsonValue.null) := by
  subst hss
  cases refTokens <;>
    simp [serializeScores, evaluateScores, mergeAndScore, runDeterministic]

/-- C3 witness: with a reference supplied, the serialized score set of a
concrete evaluated example contains the rouge_l_f key. -/
theorem reference_metrics_present_iff_witness :
    "rouge_l_f" ∈ (serializeScores (evaluateScores [] [] false false false false
      (some ["a"]) ["a"] none)).map Prod.fst :=
  (reference_metrics_present_iff [] [] false false false false (some ["a"]) ["a"]
    none _ rfl).1.mpr rfl

/-! ## Aggregation Engine (spec kind 4.5) -/

/-- The unit of output: one verdict per example. -/
structure Verdict where
  example_id : String
  issues : List Issue
  scores : ScoreSet

/-- Whether a verdict has at least one issue of the given category. -/
def hasCategory (v : Verdict) (c : IssueCategory) : Bool :=
  v.issues.any (fun i => decide (i.category = c))

/-- One per-category entry of the cohort summary error rates. -/
structure RateEntry where
  rate : ℚ
  count : ℕ
deriving DecidableEq

/-- Modelled from the spec: the per-category error-rate entry of the
CohortSummary (the aggregation module is not among the sources): count of
examples having at least one issue of the category, and rate =
count / n_examples. -/
def summarizeRate (vs : List Verdict) (c : IssueCategory) : RateEntry :=
  ⟨((vs.filter (fun v => hasCategory v c)).length : ℚ) / (vs.length : ℚ),
    (vs.filter (fun v => hasCategory v c)).length⟩

/-- The error-rate part of the CohortSummary, one entry per category. -/
structure ErrorRates where
  hallucination : RateEntry
  missing_critical : RateEntry
  clinical_error : RateEntry

/-- Modelled from the spec: the error-rate block of summarize, recomputed
from the verdicts on demand. -/
def summarizeErrorRates (vs : List Verdict) : ErrorRates :=
  ⟨summarizeRate vs .hallucination, summarizeRate vs .missing_critical,
    summarizeRate vs .clinical_error⟩

lemma hasCategory_eq_decide (v : Verdict) (c : IssueCategory) :
    hasCategory v c = decide (∃ i ∈ v.issues, i.category = c) := by
  rw [Bool.eq_iff_iff]
  simp [hasCategory]

/-- Scores attached to the verdicts of the scenario-D cohort; their values
play no role in error-rate aggregation. -/
noncomputable def dummyScores : ScoreSet :=
  ⟨0, 0, 0, 0, 0, none, none⟩

/-- A verdict with the given id and issues. -/
noncomputable def mkVerdict (id : String) (issues : List Issue) : Verdict :=
  ⟨id, issues, dummyScores⟩

/-- A synthesized hallucination issue. -/
def hallucIssue : Issue :=
  ⟨.hallucination, .minor, "unsupported sentence", some "span", none⟩

/-- Scenario D: a cohort of 10 examples, 2 flagged hallucination. -/
noncomputable def cohortD : List Verdict :=
  [mkVerdict "e1" [hallucIssue], mkVerdict "e2" [hallucIssue],
    mkVerdict "e3" [], mkVerdict "e4" [], mkVerdict "e5" [],
    mkVerdict "e6" [], mkVerdict "e7" [], mkVerdict "e8" [],
    mkVerdict "e9" [], mkVerdict "e10" []]

/-- C4: for every nonempty cohort and category, the summary's count is the
number of examples having at least one issue of that category, the rate is
count / n_examples (equivalently rate · n_examples = count); in
particular on the 10-example cohort with 2 hallucination-flagged examples
the hallucination count is 2 and the rate is 0.2. -/
theorem error_rate_count_over_n :
    (∀ (vs : List Verdict) (c : IssueCategory), vs ≠ [] →
      (summarizeRate vs c).count =
        (vs.filter (fun v => decide (∃ i ∈ v.issues, i.category = c))).length ∧
      (summarizeRate vs c).rate =
        ((summarizeRate vs c).count : ℚ) / (vs.length : ℚ) ∧
      (summarizeRate vs c).rate * (vs.length : ℚ) =
        ((summarizeRate vs c).count : ℚ)) ∧
    (summarizeErrorRates cohortD).hallucination.count = 2 ∧
    (summarizeErrorRates cohortD).hallucination.rate = 1 / 5 := by
  refine ⟨?_, ?_, ?_⟩
  · intro vs c h
    have hfe : vs.filter (fun v => hasCategory v c) =
        vs.filter (fun v => decide (∃ i ∈ v.issues, i.category = c)) := by
      apply List.filter_congr
      intro v _
      exact hasCategory_eq_decide v c
    have hlen : (vs.length : ℚ) ≠ 0 := by
      have : vs.length ≠ 0 := fun hc => h (List.length_eq_zero.mp hc)
      exact_mod_cast this
    refine ⟨by rw [summarizeRate, hfe], rfl, ?_⟩
    show (((vs.filter (fun v => hasCategory v c)).length : ℚ) / (vs.length : ℚ)) *
      (vs.length : ℚ) = _
    rw [div_mul_cancel₀ _ hlen]
    rfl
  · show (summarizeRate cohortD .hallucination).count = 2
    simp [summarizeRate, cohortD, hasCategory, mkVerdict, hallucIssue]
  · show (summarizeRate cohortD .hallucination).rate = 1 / 5
    simp [summarizeRate, cohortD, hasCategory, mkVerdict, hallucIssue]
    norm_num

/-- C4 witness: the general count/rate relation instantiated on the
scenario-D cohort and the hallucination category. -/
theorem error_rate_count_over_n_witness :
    cohortD ≠ [] ∧
    (summarizeRate cohortD .hallucination).rate * ((cohortD.length : ℚ)) =
      ((summarizeRate cohortD .hallucination).count : ℚ) :=
  ⟨by simp [cohortD],
    (error_rate_count_over_n.1 cohortD .hallucination (by simp [cohortD])).2.2⟩

/-! ## Wilson score interval (spec kind 4.5) -/

/-- The z value for a 95% confidence level. -/
noncomputable def wilsonZ : ℝ := 1.96

/-- Modelled from the spec: the lower bound of the Wilson score interval
for count successes out of n (the aggregation module is not among the
sources); used with n_examples ≥ 1. -/
noncomputable def wilsonLower (count n : ℕ) : ℝ :=
  ((count : ℝ) / (n : ℝ) + wilsonZ ^ 2 / (2 * (n : ℝ)) -
      wilsonZ * Real.sqrt ((count : ℝ) / (n : ℝ) * (1 - (count : ℝ) / (n : ℝ)) / (n : ℝ) +
        wilsonZ ^ 2 / (4 * (n : ℝ) ^ 2))) /
    (1 + wilsonZ ^ 2 / (n : ℝ))

/-- Modelled from the spec: the upper bound of the Wilson score interval
for count successes out of n. -/
noncomputable def wilsonUpper (count n : ℕ) : ℝ :=
  ((count : ℝ) / (n : ℝ) + wilsonZ ^ 2 / (2 * (n : ℝ)) +
      wilsonZ * Real.sqrt ((count : ℝ) / (n : ℝ) * (1 - (count : ℝ) / (n : ℝ)) / (n : ℝ) +
        wilsonZ ^ 2 / (4 * (n : ℝ) ^ 2))) /
    (1 + wilsonZ ^ 2 / (n : ℝ))

/-- The ci_95 field of a per-category summary entry. -/
structure CI95 where
  lower : ℝ
  upper : ℝ

/-- A per-category entry of the cohort summary with its confidence
interval: rate, count and ci_95. -/
structure RateEntryCI where
  rate : ℝ
  count : ℕ
  ci_95 : CI95

/-- Modelled from the spec: the per-category entry as serialized in the
CohortSummary — rate = count / n_examples with the Wilson ci_95. -/
noncomputable def rateEntryCI (count n : ℕ) : RateEntryCI :=
  ⟨(count : ℝ) / (n : ℝ), count, ⟨wilsonLower count n, wilsonUpper count n⟩⟩

lemma le_of_sq_le_sq_aux {x y : ℝ} (hx : 0 ≤ x) (hy : 0 ≤ y)
    (h : x ^ 2 ≤ y ^ 2) : x ≤ y := by
  have hs := Real.sqrt_le_sqrt h
  rwa [Real.sqrt_sq hx, Real.sqrt_sq hy] at hs

lemma wilson_bounds_real (p z a : ℝ) (hp0 : 0 ≤ p) (hp1 : p ≤ 1) (hz : 0 ≤ z)
    (ha : 0 ≤ a) :
    0 ≤ (p + z ^ 2 * a / 2 - z * Real.sqrt (p * (1 - p) * a + z ^ 2 * a ^ 2 / 4)) /
        (1 + z ^ 2 * a) ∧
    (p + z ^ 2 * a / 2 - z * Real.sqrt (p * (1 - p) * a + z ^ 2 * a ^ 2 / 4)) /
        (1 + z ^ 2 * a) ≤ p ∧
    p ≤ (p + z ^ 2 * a / 2 + z * Real.sqrt (p * (1 - p) * a + z ^ 2 * a ^ 2 / 4)) /
        (1 + z ^ 2 * a) ∧
    (p + z ^ 2 * a / 2 + z * Real.sqrt (p * (1 - p) * a + z ^ 2 * a ^ 2 / 4)) /
        (1 + z ^ 2 * a) ≤ 1 := by
  have h1p : (0 : ℝ) ≤ 1 - p := by linarith
  have hD : (0 : ℝ) ≤ p * (1 - p) * a + z ^ 2 * a ^ 2 / 4 :=
    add_nonneg (mul_nonneg (mul_nonneg hp0 h1p) ha) (by positivity)
  set s := Real.sqrt (p * (1 - p) * a + z ^ 2 * a ^ 2 / 4) with hsdef
  have hs0 : 0 ≤ s := Real.sqrt_nonneg _
  have hs2 : s ^ 2 = p * (1 - p) * a + z ^ 2 * a ^ 2 / 4 := Real.sq_sqrt hD
  have hden : (0 : ℝ) < 1 + z ^ 2 * a := by positivity
  have hnum_low : z * s ≤ p + z ^ 2 * a / 2 := by
    apply le_of_sq_le_sq_aux (mul_nonneg hz hs0) (by positivity)
    rw [mul_pow, hs2]
    nlinarith [sq_nonneg p, mul_nonneg (mul_nonneg (sq_nonneg z) (sq_nonneg p)) ha]
  have hnum_up : z * s ≤ (1 - p) + z ^ 2 * a / 2 := by
    apply le_of_sq_le_sq_aux (mul_nonneg hz hs0) (add_nonneg h1p (by positivity))
    rw [mul_pow, hs2]
    nlinarith [sq_nonneg (1 - p),
      mul_nonneg (mul_nonneg (sq_nonneg z) (sq_nonneg (1 - p))) ha]
  have hmid_low : z ^ 2 * a * (1 / 2 - p) ≤ z * s := by
    rcases le_or_lt (z ^ 2 * a * (1 / 2 - p)) 0 with h | h
    · exact h.trans (mul_nonneg hz hs0)
    · apply le_of_sq_le_sq_aux h.le (mul_nonneg hz hs0)
      rw [mul_pow z s, hs2]
      nlinarith [mul_nonneg (mul_nonneg (mul_nonneg (sq_nonneg z) hp0) h1p) ha,
        mul_nonneg (mul_nonneg (sq_nonneg (z ^ 2 * a)) hp0) h1p]
  have hmid_up : z ^ 2 * a * (p - 1 / 2) ≤ z * s := by
    rcases le_or_lt (z ^ 2 * a * (p - 1 / 2)) 0 with h | h
    · exact h.trans (mul_nonneg hz hs0)
    · apply le_of_sq_le_sq_aux h.le (mul_nonneg hz hs0)
      rw [mul_pow z s, hs2]
      nlinarith [mul_nonneg (mul_nonneg (mul_nonneg (sq_nonneg z) hp0) h1p) ha,
        mul_nonneg (mul_nonneg (sq_nonneg (z ^ 2 * a)) hp0) h1p]
  refine ⟨div_nonneg (by linarith) hden.le, ?_, ?_, ?_⟩
  · rw [div_le_iff₀ hden]
    nlinarith [hmid_low]
  · rw [le_div_iff₀ hden]
    nlinarith [hmid_up]
  · rw [div_le_one hden]
    linarith [hnum_up]

/-- C2: for every (count, n) with 1 ≤ n and count ≤ n, the per-category
summary entry's ci_95 holds Wilson bounds with
0 ≤ lower ≤ rate ≤ upper ≤ 1. -/
theorem wilson_ci_bounds (count n : ℕ) (h1 : 1 ≤ n) (h2 : count ≤ n) :
    0 ≤ (rateEntryCI count n).ci_95.lower ∧
    (rateEntryCI count n).ci_95.lower ≤ (rateEntryCI count n).rate ∧
    (rateEntryCI count n).rate ≤ (rateEntryCI count n).ci_95.upper ∧
    (rateEntryCI count n).ci_95.upper ≤ 1 := by
  have hnn : (0 : ℝ) < (n : ℝ) := by exact_mod_cast h1
  have hz : (0 : ℝ) ≤ wilsonZ := by norm_num [wilsonZ]
  show 0 ≤ wilsonLower count n ∧ wilsonLower count n ≤ (count : ℝ) / (n : ℝ) ∧
    (count : ℝ) / (n : ℝ) ≤ wilsonUpper count n ∧ wilsonUpper count n ≤ 1
  unfold wilsonLower wilsonUpper
  set p : ℝ := (count : ℝ) / (n : ℝ) with hpdef
  have hp0 : 0 ≤ p := by positivity
  have hp1 : p ≤ 1 := by
    rw [hpdef, div_le_one hnn]
    exact_mod_cast h2
  set a : ℝ := ((n : ℝ))⁻¹ with hadef
  have ha : 0 ≤ a := by positivity
  have e1 : wilsonZ ^ 2 / (2 * (n : ℝ)) = wilsonZ ^ 2 * a / 2 := by
    rw [hadef]; ring
  have e2 : wilsonZ ^ 2 / (4 * (n : ℝ) ^ 2) = wilsonZ ^ 2 * a ^ 2 / 4 := by
    rw [hadef]; ring
  have e3 : p * (1 - p) / (n : ℝ) = p * (1 - p) * a := by
    rw [hadef]; ring
  have e4 : wilsonZ ^ 2 / (n : ℝ) = wilsonZ ^ 2 * a := by
    rw [hadef]; ring
  rw [e1, e2, e3, e4]
  exact wilson_bounds_real p wilsonZ a hp0 hp1 hz ha

/-- C2 witness: the bounds hold at (count, n) = (0, 1) and at (1, 1). -/
theorem wilson_ci_bounds_witness :
    (0 ≤ (rateEntryCI 0 1).ci_95.lower ∧
      (rateEntryCI 0 1).ci_95.lower ≤ (rateEntryCI 0 1).rate ∧
      (rateEntryCI 0 1).rate ≤ (rateEntryCI 0 1).ci_95.upper ∧
      (rateEntryCI 0 1).ci_95.upper ≤ 1) ∧
    (0 ≤ (rateEntryCI 1 1).ci_95.lower ∧
      (rateEntryCI 1 1).ci_95.lower ≤ (rateEntryCI 1 1).rate ∧
      (rateEntryCI 1 1).rate ≤ (rateEntryCI 1 1).ci_95.upper ∧
      (rateEntryCI 1 1).ci_95.upper ≤ 1) :=
  ⟨wilson_ci_bounds 0 1 (by decide) (by decide),
    wilson_ci_bounds 1 1 (by decide) (by decide)⟩

/-! ## Frontend: IssueBreakdownChart
(frontend/src/components/charts/IssueBreakdownChart.tsx) -/

/-- One slice of the pie-chart data: its label and value. -/
structure PieEntry where
  name : String
  value : ℤ
deriving DecidableEq

/-- The four entries IssueBreakdownChart builds from a Summary before
filtering: the three per-category counts, then a No Issues entry whose
value is n_examples minus the three counts. -/
def issueBreakdownEntries (total hallucinationCount missingCriticalCount
    clinicalErrorCount : ℤ) : List PieEntry :=
  [⟨"Missing Critical", missingCriticalCount⟩,
    ⟨"Hallucination", hallucinationCount⟩,
    ⟨"Clinical Error", clinicalErrorCount⟩,
    ⟨"No Issues", total - hallucinationCount - missingCriticalCount -
      clinicalErrorCount⟩]

/-- The chart's rendered data: only slices with values > 0 are kept. -/
def issueBreakdownData (total h m c : ℤ) : List PieEntry :=
  (issueBreakdownEntries total h m c).filter (fun e => decide (0 < e.value))

/-- C8: the pie data contains a No Issues entry valued exactly
n_examples − hallucination − missing_critical − clinical_error; every
rendered entry has value > 0 (entries ≤ 0 are filtered out); and when the
three counts exceed n_examples the negative No Issues entry is silently
dropped from the rendered data. -/
theorem issue_breakdown_filtering (total h m c : ℤ) :
    (∃ e ∈ issueBreakdownEntries total h m c,
      e.name = "No Issues" ∧ e.value = total - h - m - c) ∧
    (∀ e ∈ issueBreakdownData total h m c, 0 < e.value) ∧
    (total < h + m + c →
      ∀ e ∈ issueBreakdownData total h m c, e.name ≠ "No Issues") := by
  refine ⟨⟨⟨"No Issues", total - h - m - c⟩, by simp [issueBreakdownEntries],
    rfl, rfl⟩, ?_, ?_⟩
  · intro e he
    have := List.of_mem_filter he
    simpa using this
  · intro hover e he
    rw [issueBreakdownData, List.mem_filter] at he
    obtain ⟨hmem, hpos⟩ := he
    simp only [decide_eq_true_eq] at hpos
    simp only [issueBreakdownEntries, List.mem_cons, List.mem_singleton,
      List.not_mem_nil, or_false] at hmem
    rcases hmem with h1 | h2 | h3 | h4 <;> subst_vars <;> simp_all <;> omega

/-- C8 witness: on a summary of 2 examples with counts 1, 1, 1, no
rendered slice is named No Issues. -/
theorem issue_breakdown_filtering_witness :
    ∀ e ∈ issueBreakdownData 2 1 1 1, e.name ≠ "No Issues" :=
  (issue_breakdown_filtering 2 1 1 1).2.2 (by decide)

/-! ## Frontend: QualityDistributionChart
(frontend/src/components/charts/IssueBreakdownChart.tsx, third component) -/

/-- The bin index the chart computes for a quality value:
min(floor(quality · 10), 9). -/
def binIndex (quality : ℚ) : ℤ := min ⌊quality * 10⌋ 9

/-- Increment the count at position i, leaving the list unchanged when i
is out of range. -/
def bumpAt : List ℕ → ℕ → List ℕ
  | [], _ => []
  | x :: xs, 0 => (x + 1) :: xs
  | x :: xs, n + 1 => x :: bumpAt xs n

/-- The ten bin counts the chart accumulates over the notes' overall
quality values (bins 0.0-0.1 through 0.9-1.0). -/
def binnedCounts (qualities : List ℚ) : List ℕ :=
  qualities.foldl (fun bins q => bumpAt bins (binIndex q).toNat)
    (List.replicate 10 0)

lemma binIndex_mem {q : ℚ} (h0 : 0 ≤ q) (h1 : q ≤ 1) :
    0 ≤ binIndex q ∧ binIndex q ≤ 9 := by
  unfold binIndex
  constructor
  · apply le_min _ (by norm_num)
    exact Int.le_floor.mpr (by push_cast; linarith)
  · exact min_le_right _ _

lemma bumpAt_length (l : List ℕ) (i : ℕ) : (bumpAt l i).length = l.length := by
  induction l generalizing i with
  | nil => rfl
  | cons x xs ih =>
    cases i with
    | zero => rfl
    | succ n => simp [bumpAt, ih]

lemma bumpAt_sum {l : List ℕ} {i : ℕ} (h : i < l.length) :
    (bumpAt l i).sum = l.sum + 1 := by
  induction l generalizing i with
  | nil => simp at h
  | cons x xs ih =>
    cases i with
    | zero => simp [bumpAt]; omega
    | succ n =>
      simp only [bumpAt, List.sum_cons]
      rw [ih (by simpa using h)]
      omega

lemma binned_sum_aux (qs : List ℚ) (bins : List ℕ) (hlen : bins.length = 10)
    (hq : ∀ q ∈ qs, 0 ≤ q ∧ q ≤ 1) :
    (qs.foldl (fun b q => bumpAt b (binIndex q).toNat) bins).sum =
      bins.sum + qs.length := by
  induction qs generalizing bins with
  | nil => simp
  | cons q qs ih =>
    have hmem := hq q (by simp)
    have hidx := binIndex_mem hmem.1 hmem.2
    have hlt : (binIndex q).toNat < bins.length := by
      rw [hlen]
      omega
    rw [List.foldl_cons, ih (bumpAt bins (binIndex q).toNat)
      (by rw [bumpAt_length, hlen]) (fun x hx => hq x (by simp [hx])),
      bumpAt_sum hlt]
    simp only [List.length_cons]
    omega

/-- C9: for notes whose overall quality values lie in [0,1], the computed
bin index min(floor(10·q), 9) always lies in 0..9 — a valid index into
the 10 allocated bins, with quality exactly 1 landing in bin 9 — and the
bin counts sum to the number of notes. -/
theorem quality_bins_valid (qualities : List ℚ)
    (hq : ∀ q ∈ qualities, 0 ≤ q ∧ q ≤ 1) :
    (binnedCounts qualities).length = 10 ∧
    (binnedCounts qualities).sum = qualities.length ∧
    (∀ q ∈ qualities, 0 ≤ binIndex q ∧ binIndex q ≤ 9) ∧
    binIndex 1 = 9 := by
  refine ⟨?_, ?_, ?_, by norm_num [binIndex]⟩
  · unfold binnedCounts
    have : ∀ (qs : List ℚ) (bins : List ℕ),
        (qs.foldl (fun b q => bumpAt b (binIndex q).toNat) bins).length =
          bins.length := by
      intro qs
      induction qs with
      | nil => intro bins; rfl
      | cons q qs ih =>
        intro bins
        rw [List.foldl_cons, ih, bumpAt_length]
    rw [this]
    rfl
  · unfold binnedCounts
    rw [binned_sum_aux qualities (List.replicate 10 0) (by rfl) hq]
    simp
  · intro q hmem
    exact binIndex_mem (hq q hmem).1 (hq q hmem).2

/-- C9 witness: the binning property on the concrete qualities
0, 1/2 and 1. -/
theorem quality_bins_valid_witness :
    (binnedCounts [0, 1/2, 1]).length = 10 ∧
    (binnedCounts [0, 1/2, 1]).sum = ([0, 1/2, 1] : List ℚ).length ∧
    (∀ q ∈ ([0, 1/2, 1] : List ℚ), 0 ≤ binIndex q ∧ binIndex q ≤ 9) ∧
    binIndex 1 = 9 :=
  quality_bins_valid [0, 1/2, 1] (by intro q hq; fin_cases hq <;> norm_num)

/-! ## Frontend API client: fetchNotes (frontend/src/api.ts) -/

/-- The API base URL (the development default of frontend/src/config.ts;
the environment-variable override plays no role in URL construction). -/
def API_BASE_URL : String := "http://localhost:8000"

/-- The optional filter parameters accepted by fetchNotes. -/
structure FetchNotesParams where
  min_quality : Option ℚ
  max_quality : Option ℚ
  hallucination_only : Bool
  missing_critical_only : Bool
  major_issues_only : Bool

/-- The decimal rendering of a quality value, as Number.toString. -/
def qToString (q : ℚ) : String := toString q

/-- The search parameters fetchNotes appends, in order: min_quality and
max_quality whenever defined (the code tests for undefined, so the value
0 is appended too), and each boolean flag exactly when it is true. -/
def buildSearchParams (ps : FetchNotesParams) : List (String × String) :=
  (match ps.min_quality with
    | some v => [("min_quality", qToString v)]
    | none => []) ++
  (match ps.max_quality with
    | some v => [("max_quality", qToString v)]
    | none => []) ++
  (if ps.hallucination_only then [("hallucination_only", "true")] else []) ++
  (if ps.missing_critical_only then [("missing_critical_only", "true")] else []) ++
  (if ps.major_issues_only then [("major_issues_only", "true")] else [])

/-- URLSearchParams.toString: key=value pairs joined by ampersands. -/
def searchParamsToString (l : List (String × String)) : String :=
  String.intercalate "&" (l.map (fun kv => kv.1 ++ "=" ++ kv.2))

/-- The URL fetchNotes requests: the query string is appended after a
question mark only when it is nonempty. -/
def fetchNotesUrl (ps : FetchNotesParams) : String :=
  API_BASE_URL ++ "/api/notes" ++
    (if searchParamsToString (buildSearchParams ps) = "" then ""
      else "?" ++ searchParamsToString (buildSearchParams ps))

/-- C10: the query parameters contain min_quality / max_quality exactly
when those parameters are defined (the value 0 included), and each
boolean filter key exactly when its flag is true; when no parameter is
appended, the bare /api/notes URL without a question mark is requested. -/
theorem fetchNotes_url_params (ps : FetchNotesParams) :
    ("min_quality" ∈ (buildSearchParams ps).map Prod.fst ↔
      ps.min_quality.isSome) ∧
    ("max_quality" ∈ (buildSearchParams ps).map Prod.fst ↔
      ps.max_quality.isSome) ∧
    ("hallucination_only" ∈ (buildSearchParams ps).map Prod.fst ↔
      ps.hallucination_only = true) ∧
    ("missing_critical_only" ∈ (buildSearchParams ps).map Prod.fst ↔
      ps.missing_critical_only = true) ∧
    ("major_issues_only" ∈ (buildSearchParams ps).map Prod.fst ↔
      ps.major_issues_only = true) ∧
    (buildSearchParams ps = [] →
      fetchNotesUrl ps = API_BASE_URL ++ "/api/notes" ∧
      '?' ∉ (fetchNotesUrl ps).toList) := by
  obtain ⟨mq, xq, ho, hm, hj⟩ := ps
  cases mq <;> cases xq <;> cases ho <;> cases hm <;> cases hj <;>
    simp [buildSearchParams, fetchNotesUrl, searchParamsToString, qToString,
      API_BASE_URL] <;> decide

/-- C10 witness: with min_quality 0 and the hallucination filter on, both
keys appear; with no parameters, the bare URL is requested. -/
theorem fetchNotes_url_params_witness :
    ("min_quality" ∈
      (buildSearchParams ⟨some 0, none, true, false, false⟩).map Prod.fst) ∧
    (fetchNotesUrl ⟨none, none, false, false, false⟩ =
      API_BASE_URL ++ "/api/notes") :=
  ⟨(fetchNotes_url_params ⟨some 0, none, true, false, false⟩).1.mpr rfl,
    ((fetchNotes_url_params ⟨none, none, false, false, false⟩).2.2.2.2.2
      rfl).1⟩

end SOAPVerify
